import Mathlib

/-!
Storage layer of `src/common/storage.hpp`.

A shallow embedding of the `storage` namespace: the abstract `Storage`
class with its three implementations (`MemoryStorage`, `FileStorage`,
`ViewStorage`), the derived operations `createView`, `toMemoryStorage`,
`toFileStorage`, and the file mapping life cycle of `FileStorage`.

Conventions of the embedding

* `size_t` and `uint64_t` are naturals below `2 ^ 64` (the code shifts a
  `size_t` right by 32, so it is built for 64 bits), `DWORD` is a natural
  below `2 ^ 32`; every machine addition, shift and cast is written with its
  explicit modulus.
* A pointer is a pair (block, offset).  Process memory is a list of blocks;
  a block is a heap allocation, a mapped view of a file, or freed.  A fresh
  allocation appends a block, so it never aliases an older one.  Pointer
  arithmetic `p + k` adds to the offset.
* C++ objects live in an object table; every entry carries the use count of
  the `std::shared_ptr` control block that owns it.  `shared_from_this()`
  on an object with use count zero throws `std::bad_weak_ptr`.
* The Win32 calls (`CreateFile`, `GetFileSize`, `CreateFileMapping`,
  `MapViewOfFile`, `UnmapViewOfFile`, `CloseHandle`) act on a table of
  kernel handles and on a table of files.  Every call is appended to a trace;
  a call whose position in the trace is listed in `faults` fails for an
  environmental reason (sharing violation, access rights, exhausted
  resources). On failure `CreateFile` returns `INVALID_HANDLE_VALUE`,
  `CreateFileMapping` and `MapViewOfFile` return `NULL`, and `GetFileSize`
  returns `INVALID_FILE_SIZE`. A mapped view holds the bytes of the file at
  the time of mapping; the bytes of a writable view are in the file once the
  view is unmapped.
* A thrown exception is an outcome `Outcome.throw` that still carries the
  world, so that what a failed call leaves behind can be inspected.
-/

namespace storage

/-! ## Machine constants -/

/-- Modulus of `size_t` / `uint64_t` arithmetic. -/
def SIZE_T_MOD : Nat := 2 ^ 64

/-- Modulus of `DWORD` arithmetic. -/
def DWORD_MOD : Nat := 2 ^ 32

/-- Win32 `INVALID_FILE_SIZE`, the value `((DWORD)0xFFFFFFFF)`. -/
def INVALID_FILE_SIZE : Nat := 0xFFFFFFFF

/-! ## Pointers and process memory -/

/-- A non-null `uint8_t*`: a block of process memory and an offset into it. -/
structure Ptr where
  block : Nat
  off : Nat
deriving DecidableEq, Repr

/-- Pointer arithmetic `p + k`. -/
def Ptr.add (p : Ptr) (k : Nat) : Ptr := ⟨p.block, p.off + k⟩

instance : HAdd Ptr Nat Ptr := ⟨Ptr.add⟩

/-- One block of process memory. A mapped view remembers the file it maps and
whether it was mapped for writing. -/
inductive Block where
  | freed
  | heap (bytes : List Nat)
  | mapped (file : String) (writable : Bool) (bytes : List Nat)
deriving DecidableEq, Repr

/-- The bytes of a block that can be accessed, if any. -/
def Block.bytes? : Block → Option (List Nat)
  | .freed => none
  | .heap bs => some bs
  | .mapped _ _ bs => some bs

/-- A block with its bytes replaced (a freed block stays freed). -/
def Block.withBytes : Block → List Nat → Block
  | .freed, _ => .freed
  | .heap _, bs => .heap bs
  | .mapped f wr _, bs => .mapped f wr bs

/-! ## Win32 kernel objects -/

/-- A Win32 `HANDLE`: `NULL`, `INVALID_HANDLE_VALUE`, or an entry of the
handle table. -/
inductive HANDLE where
  | null
  | invalid
  | h (n : Nat)
deriving DecidableEq, Repr

/-- Win32 `INVALID_HANDLE_VALUE`. -/
def INVALID_HANDLE_VALUE : HANDLE := HANDLE.invalid

/-- What an open handle refers to. -/
inductive KObj where
  | file (path : String) (writable : Bool)
  | mapping (path : String) (maxSize : Nat) (writable : Bool)
deriving DecidableEq, Repr

/-- Creation disposition of `CreateFile`. -/
inductive Disposition where
  | CREATE_ALWAYS
  | OPEN_EXISTING
deriving DecidableEq, Repr

/-- One platform call, as recorded in the trace. -/
inductive Call where
  | createFile (path : String) (writable : Bool) (d : Disposition)
  | getFileSize (file : HANDLE)
  | createFileMapping (file : HANDLE) (writable : Bool) (high low : Nat)
  | mapViewOfFile (mapping : HANDLE) (writable : Bool)
  | unmapViewOfFile (p : Ptr)
  | closeHandle (hd : HANDLE)
deriving DecidableEq, Repr

/-! ## Objects -/

/-- The three concrete storage classes with their data members.
`MemoryStorage::_data` is a `std::vector<uint8_t>`, represented by the heap
block that holds its elements; its length is the length of that block.
Only completely constructed objects are stored, and the `FileStorage`
constructor throws when the view pointer is null, so `_mapped` is non-null. -/
inductive Storage where
  | memory (_data : Nat)
  | file (_file _mapping : HANDLE) (_size : Nat) (_mapped : Ptr)
  | view (_owner : Nat) (_size : Nat) (_data : Ptr)
deriving DecidableEq, Repr

/-- An object together with the use count of its `shared_ptr` control block. -/
structure Cell where
  obj : Storage
  useCount : Nat
deriving DecidableEq, Repr

/-- Errors thrown: the `std::runtime_error`s of the source, `std::bad_weak_ptr`
of `shared_from_this`, and an access outside every live block (undefined
behaviour in C++). -/
inductive Error where
  | invalidMappingRange
  | unableToCreateFile
  | unableToFetchFileSize
  | unableToMapFile
  | unableToCreateMapView
  | badWeakPtr
  | accessViolation
deriving DecidableEq, Repr

/-- The `what()` string of an error. -/
def Error.what : Error → String
  | .invalidMappingRange => "Invalid mapping range"
  | .unableToCreateFile => "Unable to create file"
  | .unableToFetchFileSize => "Unable to fetch file size"
  | .unableToMapFile => "Unable to map file"
  | .unableToCreateMapView => "Unable to create map view of file"
  | .badWeakPtr => "bad_weak_ptr"
  | .accessViolation => "access violation"

/-- The whole state: process memory, files, handle table, object table, trace
of platform calls and the positions of the calls that fail. -/
structure World where
  mem : List Block
  files : List (String × List Nat)
  handles : List (Option KObj)
  objs : List (Option Cell)
  trace : List Call
  faults : List Nat
deriving DecidableEq, Repr

/-- Result of an operation that may throw. -/
inductive Outcome (α : Type) where
  | ok (w : World) (a : α)
  | throw (w : World) (e : Error)
deriving DecidableEq, Repr

/-- The world an outcome leaves behind. -/
def Outcome.world {α : Type} : Outcome α → World
  | .ok w _ => w
  | .throw w _ => w

/-! ## Memory access -/

/-- Read `n` bytes at `p`; `none` when the range is not inside a live block. -/
def readBytes (w : World) (p : Ptr) (n : Nat) : Option (List Nat) :=
  match w.mem[p.block]? with
  | some b =>
    match b.bytes? with
    | some bs => if p.off + n ≤ bs.length then some ((bs.drop p.off).take n) else none
    | none => none
  | none => none

/-- Overwrite the bytes at `p` with `src`; `none` when the range is not inside
a live block. -/
def writeBytes (w : World) (p : Ptr) (src : List Nat) : Option World :=
  match w.mem[p.block]? with
  | some b =>
    match b.bytes? with
    | some bs =>
      if p.off + src.length ≤ bs.length then
        let bs1 := bs.take p.off ++ src ++ bs.drop (p.off + src.length)
        some { w with mem := w.mem.set p.block (b.withBytes bs1) }
      else none
    | none => none
  | none => none

/-- C `memcpy(dest, src, n)`. -/
def memcpy (w : World) (dest src : Ptr) (n : Nat) : Option World :=
  match readBytes w src n with
  | some bs => writeBytes w dest bs
  | none => none

/-- Allocate a fresh heap block holding `bs`; returns the block index. -/
def allocBlock (w : World) (b : Block) : World × Nat :=
  ({ w with mem := w.mem ++ [b] }, w.mem.length)

/-! ## Object table and shared ownership -/

/-- The live object with index `id`. -/
def getCell (w : World) (id : Nat) : Option Cell :=
  match w.objs[id]? with
  | some (some c) => some c
  | _ => none

/-- Place a newly constructed object, owned by one `shared_ptr`
(`shared_ptr<T>(new T(...))` or `make_shared<T>(...)`). -/
def newShared (w : World) (s : Storage) : World × Nat :=
  ({ w with objs := w.objs ++ [some ⟨s, 1⟩] }, w.objs.length)

/-- Copy a `shared_ptr` to object `id`: the use count goes up by one. -/
def acquire (w : World) (id : Nat) : World :=
  match getCell w id with
  | some c => { w with objs := w.objs.set id (some { c with useCount := c.useCount + 1 }) }
  | none => w

/-! ## `Storage`: the virtual interface -/

/-- The virtual `size()` of each class: `_data.size()`, `_size`, `_size`. -/
def Storage.size (w : World) : Storage → Nat
  | .memory buf =>
    match w.mem[buf]? with
    | some (.heap bs) => bs.length
    | _ => 0
  | .file _ _ sz _ => sz
  | .view _ sz _ => sz

/-- The virtual `data()` of each class: `_data.data()`, `_mapped`, `_data`. -/
def Storage.data : Storage → Ptr
  | .memory buf => ⟨buf, 0⟩
  | .file _ _ _ m => m
  | .view _ _ d => d

/-- The method `Storage::createView(viewSize, offset)` called on the object `self`
(lines 52-61). -/
def Storage.createView (w : World) (self : Nat) (viewSize offset : Nat) : Outcome Nat :=
  match getCell w self with
  | none => .throw w .accessViolation
  | some c =>
    let selfSize := c.obj.size w
    let viewSize := if 0 = viewSize then selfSize else viewSize
    if (viewSize + offset) % SIZE_T_MOD > selfSize then
      .throw w .invalidMappingRange
    else if c.useCount = 0 then
      .throw w .badWeakPtr
    else
      let w1 := acquire w self
      let r := newShared w1 (.view self viewSize (c.obj.data + offset))
      .ok r.1 r.2

/-! ## `MemoryStorage` -/

/-- The constructor `MemoryStorage::MemoryStorage(size, data)` (lines 74-79):
`_data.resize(size)` gives a zero-filled vector, and a non-null `data` is
copied over it. Allocation itself is taken to succeed. -/
def MemoryStorage.ctor (w : World) (size : Nat) (data : Option Ptr) : Outcome Storage :=
  let r := allocBlock w (.heap (List.replicate size 0))
  match data with
  | none => .ok r.1 (.memory r.2)
  | some src =>
    match memcpy r.1 ⟨r.2, 0⟩ src size with
    | some w2 => .ok w2 (.memory r.2)
    | none => .throw r.1 .accessViolation

/-- Whether the next platform call fails for an environmental reason. -/
def faulty (w : World) : Bool := w.faults.contains w.trace.length

/-- Append a call to the trace. -/
def logCall (w : World) (c : Call) : World := { w with trace := w.trace ++ [c] }

/-- Content of the file at `path`, if it exists. -/
def fileContent (w : World) (path : String) : Option (List Nat) := w.files.lookup path

/-- Create or replace the file at `path`. -/
def setFile (w : World) (path : String) (bs : List Nat) : World :=
  { w with files := (path, bs) :: w.files.filter (fun e => e.1 != path) }

/-- What a handle refers to, when it is open. -/
def getHandle (w : World) : HANDLE → Option KObj
  | .h n =>
    match w.handles[n]? with
    | some (some k) => some k
    | _ => none
  | _ => none

/-- Enter a new kernel object in the handle table. -/
def newHandle (w : World) (k : KObj) : World × HANDLE :=
  ({ w with handles := w.handles ++ [some k] }, .h w.handles.length)

/-- Win32 `CreateFile`: `INVALID_HANDLE_VALUE` on failure. `CREATE_ALWAYS`
creates the file or truncates it to length zero; `OPEN_EXISTING` fails when
the file does not exist. -/
def CreateFile (w : World) (path : String) (writable : Bool) (d : Disposition) :
    World × HANDLE :=
  let w1 := logCall w (.createFile path writable d)
  if faulty w then (w1, INVALID_HANDLE_VALUE)
  else
    match d with
    | .CREATE_ALWAYS => newHandle (setFile w1 path []) (.file path writable)
    | .OPEN_EXISTING =>
      match fileContent w1 path with
      | none => (w1, INVALID_HANDLE_VALUE)
      | some _ => newHandle w1 (.file path writable)

/-- Win32 `GetFileSize(hFile, &high)`: returns the low `DWORD` of the file
length and stores the high `DWORD`; on failure the return value is
`INVALID_FILE_SIZE`. The result is (world, low, high). -/
def GetFileSize (w : World) (hFile : HANDLE) : World × Nat × Nat :=
  let w1 := logCall w (.getFileSize hFile)
  if faulty w then (w1, INVALID_FILE_SIZE, 0)
  else
    match getHandle w hFile with
    | some (.file path _) =>
      match fileContent w path with
      | some bs => (w1, bs.length % DWORD_MOD, (bs.length / DWORD_MOD) % DWORD_MOD)
      | none => (w1, INVALID_FILE_SIZE, 0)
    | _ => (w1, INVALID_FILE_SIZE, 0)

/-- Win32 `CreateFileMapping(hFile, 0, protect, high, low, 0)`: `NULL` on
failure. A maximum size of zero stands for the current length of the file; a
file of length zero cannot be mapped; a read-write mapping larger than the
file extends the file, a read-only one fails. -/
def CreateFileMapping (w : World) (hFile : HANDLE) (writable : Bool) (high low : Nat) :
    World × HANDLE :=
  let w1 := logCall w (.createFileMapping hFile writable high low)
  if faulty w then (w1, .null)
  else
    match getHandle w hFile with
    | some (.file path fw) =>
      match fileContent w path with
      | none => (w1, .null)
      | some bs =>
        let req := high * DWORD_MOD + low
        let maxSize := if req = 0 then bs.length else req
        if maxSize = 0 then (w1, .null)
        else if writable && !fw then (w1, .null)
        else if maxSize > bs.length then
          if writable then
            newHandle (setFile w1 path (bs ++ List.replicate (maxSize - bs.length) 0))
              (.mapping path maxSize writable)
          else (w1, .null)
        else newHandle w1 (.mapping path maxSize writable)
    | _ => (w1, .null)

/-- Win32 `MapViewOfFile(hMapping, access, 0, 0, 0)`: maps the whole mapping
object into a new block; a null pointer (`none`) on failure. -/
def MapViewOfFile (w : World) (hMapping : HANDLE) (writable : Bool) :
    World × Option Ptr :=
  let w1 := logCall w (.mapViewOfFile hMapping writable)
  if faulty w then (w1, none)
  else
    match getHandle w hMapping with
    | some (.mapping path maxSize mw) =>
      match fileContent w path with
      | none => (w1, none)
      | some bs =>
        if writable && !mw then (w1, none)
        else
          let r := allocBlock w1 (.mapped path writable (bs.take maxSize))
          (r.1, some ⟨r.2, 0⟩)
    | _ => (w1, none)

/-- Win32 `UnmapViewOfFile(p)`: the view goes away; the bytes of a writable
view are in the file afterwards. -/
def UnmapViewOfFile (w : World) (p : Ptr) : World :=
  let w1 := logCall w (.unmapViewOfFile p)
  match w.mem[p.block]? with
  | some (.mapped path wr bs) =>
    if p.off = 0 then
      let w2 :=
        if wr then
          match fileContent w1 path with
          | some old => setFile w1 path (bs ++ old.drop bs.length)
          | none => w1
        else w1
      { w2 with mem := w2.mem.set p.block .freed }
    else w1
  | _ => w1

/-- Win32 `CloseHandle(h)`: closes an open handle; anything else (`NULL`,
`INVALID_HANDLE_VALUE`, a closed handle) is left alone. -/
def CloseHandle (w : World) (hd : HANDLE) : World :=
  let w1 := logCall w (.closeHandle hd)
  match hd with
  | .h n =>
    match getHandle w hd with
    | some _ => { w1 with handles := w1.handles.set n none }
    | none => w1
  | _ => w1

/-! ## `FileStorage` -/

/-- The constructor `FileStorage::FileStorage(filename)` (lines 121-145). -/
def FileStorage.ctor (w : World) (filename : String) : Outcome Storage :=
  let r1 := CreateFile w filename false .OPEN_EXISTING
  let _file := r1.2
  if _file = INVALID_HANDLE_VALUE then .throw r1.1 .unableToCreateFile
  else
    let r2 := GetFileSize r1.1 _file
    let fileSizeLow := r2.2.1
    let fileSizeHigh := r2.2.2
    if INVALID_FILE_SIZE = fileSizeLow then .throw r2.1 .unableToFetchFileSize
    else
      let _size := fileSizeHigh
      let _size := (_size <<< 32) % SIZE_T_MOD
      let _size := _size ||| fileSizeLow
      let r3 := CreateFileMapping r2.1 _file false fileSizeHigh fileSizeLow
      let _mapping := r3.2
      if _mapping = INVALID_HANDLE_VALUE then .throw r3.1 .unableToMapFile
      else
        let r4 := MapViewOfFile r3.1 _mapping false
        match r4.2 with
        | none => .throw r4.1 .unableToCreateMapView
        | some _mapped => .ok r4.1 (.file _file _mapping _size _mapped)

/-- The call `std::make_shared<FileStorage>(filename)`. -/
def FileStorage.make_shared (w : World) (filename : String) : Outcome Nat :=
  match FileStorage.ctor w filename with
  | .throw w1 e => .throw w1 e
  | .ok w1 s =>
    let r := newShared w1 s
    .ok r.1 r.2

/-- The static method `FileStorage::create(filename, size, data)` (lines 100-119). -/
def FileStorage.create (w : World) (filename : String) (size : Nat) (data : Ptr) :
    Outcome Nat :=
  let r1 := CreateFile w filename true .CREATE_ALWAYS
  let newFile := r1.2
  if newFile = INVALID_HANDLE_VALUE then .throw r1.1 .unableToCreateFile
  else
    let r2 := CreateFileMapping r1.1 newFile true ((size >>> 32) % DWORD_MOD) (size % DWORD_MOD)
    let mapping := r2.2
    if mapping = INVALID_HANDLE_VALUE then .throw r2.1 .unableToMapFile
    else
      let r3 := MapViewOfFile r2.1 mapping true
      match r3.2 with
      | none => .throw r3.1 .unableToCreateMapView
      | some dest =>
        match memcpy r3.1 dest data size with
        | none => .throw r3.1 .accessViolation
        | some w4 =>
          let w5 := UnmapViewOfFile w4 dest
          let w6 := CloseHandle w5 mapping
          let w7 := CloseHandle w6 newFile
          FileStorage.make_shared w7 filename

/-- The destructor `FileStorage::~FileStorage()` (lines 147-153). -/
def FileStorage.dtor (w : World) (_file _mapping : HANDLE) (_mapped : Ptr) : World :=
  let w1 := UnmapViewOfFile w _mapped
  let w2 := CloseHandle w1 _mapping
  CloseHandle w2 _file

/-- The method `Storage::toFileStorage(filename)` (lines 159-161). -/
def Storage.toFileStorage (w : World) (self : Nat) (filename : String) : Outcome Nat :=
  match getCell w self with
  | none => .throw w .accessViolation
  | some c => FileStorage.create w filename (c.obj.size w) c.obj.data

/-! ## Dropping a `shared_ptr` -/

/-- Destruction of one `shared_ptr` to object `id`. The use count goes down by
one; the last owner destroys the object: a `MemoryStorage` frees its vector, a
`FileStorage` runs its destructor, a `ViewStorage` drops its `_owner`. The
first argument bounds the length of the chain of owners that is followed. -/
def releaseAux : Nat → World → Nat → World
  | 0, w, _ => w
  | fuel + 1, w, id =>
    match getCell w id with
    | none => w
    | some c =>
      if c.useCount ≤ 1 then
        let w1 := { w with objs := w.objs.set id none }
        match c.obj with
        | .memory buf => { w1 with mem := w1.mem.set buf .freed }
        | .file f m _ p => FileStorage.dtor w1 f m p
        | .view owner _ _ => releaseAux fuel w1 owner
      else
        { w with objs := w.objs.set id (some { c with useCount := c.useCount - 1 }) }

/-- Destruction of one `shared_ptr` to object `id`; a chain of owners is never
longer than the object table. -/
def release (w : World) (id : Nat) : World := releaseAux w.objs.length w id

/-- Destruction of `k` `shared_ptr`s to object `id`. -/
def releaseMany : Nat → World → Nat → World
  | 0, w, _ => w
  | k + 1, w, id => releaseMany k (release w id) id

/-! ## Observations -/

/-- Indices of the open handles. -/
def openHandles (w : World) : List Nat :=
  (List.range w.handles.length).filter (fun n => (getHandle w (.h n)).isSome)

/-- The value of `size()` for the object `id` (zero when there is no such object). -/
def sizeOf (w : World) (id : Nat) : Nat :=
  match getCell w id with
  | some c => c.obj.size w
  | none => 0

/-- The value of `data()` for the object `id`. -/
def dataOf (w : World) (id : Nat) : Option Ptr :=
  match getCell w id with
  | some c => some c.obj.data
  | none => none

/-- The bytes a reader sees through `data()` and `size()` of the object `id`. -/
def contents (w : World) (id : Nat) : Option (List Nat) :=
  match getCell w id with
  | some c => readBytes w c.obj.data (c.obj.size w)
  | none => none

/-- The world after a successful `createView` on `self` (whose cell is `c`):
one more owner of `self`, and the new view as last object. -/
def viewWorld (w : World) (self : Nat) (c : Cell) (vs : Nat) (offset : Nat) : World :=
  { w with objs := w.objs.set self (some { c with useCount := c.useCount + 1 })
      ++ [some ⟨.view self vs (c.obj.data + offset), 1⟩] }

/-- No platform call still to come is scheduled to fail. -/
def calm (w : World) : Bool := w.faults.all (fun n => decide (n < w.trace.length))

/-- A world with the two-byte file "f" and, as object 0,
`MemoryStorage(4, {1, 2, 3, 4})`, in which the platform call number `k`
fails. -/
def fileWorld (k : Nat) : World :=
  ⟨[.heap [1, 2, 3, 4]], [("f", [7, 9])], [], [some ⟨.memory 0, 1⟩], [], [k]⟩

/-- The size `createView` works with after the substitution for zero. -/
def effSize (n viewSize : Nat) : Nat := if 0 = viewSize then n else viewSize

/-! ## Sample worlds -/

/-- An empty world without faults. -/
def World.empty : World := ⟨[], [], [], [], [], []⟩

/-- The world after `MemoryStoragePointer(new MemoryStorage(4, "\x01\x02\x03\x04"))`:
object 0 is that storage. -/
def sample4 : World :=
  ⟨[.heap [1, 2, 3, 4]], [], [], [some ⟨.memory 0, 1⟩], [], []⟩

/-- The same storage as in `sample4`, but not owned by any `shared_ptr` (use
count 0), as an object with automatic storage duration is. -/
def unshared4 : World :=
  ⟨[.heap [1, 2, 3, 4]], [], [], [some ⟨.memory 0, 0⟩], [], []⟩

/-- A world whose object 0 is a `MemoryStorage` of 4294967295 = 2^32 - 1 zero
bytes, without files and without scheduled faults. -/
def sampleBig : World :=
  ⟨[.heap (List.replicate 4294967295 0)], [], [], [some ⟨.memory 0, 1⟩], [], []⟩

/-- A world with the existing file "f" of 4294967295 = 2^32 - 1 zero bytes,
without scheduled faults. -/
def bigFileWorld : World :=
  ⟨[], [("f", List.replicate 4294967295 0)], [], [], [], []⟩

/-- A world whose object 0 is an empty `MemoryStorage`. -/
def sample0 : World :=
  ⟨[.heap []], [], [], [some ⟨.memory 0, 1⟩], [], []⟩

end storage

namespace storage

/-! ## Lemmas on the object table -/

theorem getCell_lt {w : World} {id : Nat} {c : Cell} (h : getCell w id = some c) :
    id < w.objs.length := by
  unfold getCell at h
  by_contra hlt
  rw [List.getElem?_eq_none (Nat.le_of_not_lt hlt)] at h
  simp at h

theorem getCell_of_getElem {w : World} {id : Nat} {c : Cell}
    (h : w.objs[id]? = some (some c)) : getCell w id = some c := by
  unfold getCell
  rw [h]

theorem size_congr {w1 w2 : World} (s : Storage) (h : w1.mem = w2.mem) :
    s.size w1 = s.size w2 := by
  cases s <;> simp [Storage.size, h]

theorem Ptr.add_zero (p : Ptr) : p + 0 = p := rfl

theorem Ptr.add_add (p : Ptr) (a b : Nat) : p + a + b = p + (a + b) := by
  show Ptr.add (Ptr.add p a) b = Ptr.add p (a + b)
  simp [Ptr.add, Nat.add_assoc]

theorem createView_eq {w : World} {self : Nat} {c : Cell} (hc : getCell w self = some c)
    (viewSize offset : Nat) :
    Storage.createView w self viewSize offset =
      if (effSize (c.obj.size w) viewSize + offset) % SIZE_T_MOD
          > c.obj.size w then .throw w .invalidMappingRange
      else if c.useCount = 0 then .throw w .badWeakPtr
      else .ok (viewWorld w self c (effSize (c.obj.size w) viewSize) offset)
        w.objs.length := by
  simp only [Storage.createView, hc, viewWorld, newShared, acquire, List.length_set, effSize]

theorem viewWorld_mem (w : World) (self : Nat) (c : Cell) (vs offset : Nat) :
    (viewWorld w self c vs offset).mem = w.mem := rfl

theorem viewWorld_new (w : World) (self : Nat) (c : Cell) (vs offset : Nat) :
    getCell (viewWorld w self c vs offset) w.objs.length
      = some ⟨.view self vs (c.obj.data + offset), 1⟩ := by
  apply getCell_of_getElem
  simp [viewWorld, List.getElem?_append_right]

theorem viewWorld_self {w : World} {self : Nat} {c : Cell} (hc : getCell w self = some c)
    (vs offset : Nat) :
    getCell (viewWorld w self c vs offset) self
      = some { c with useCount := c.useCount + 1 } := by
  apply getCell_of_getElem
  have hlt := getCell_lt hc
  simp [viewWorld, List.getElem?_append_left, hlt, List.getElem?_set]

theorem viewWorld_other {w : World} {self : Nat} (c : Cell) (vs offset : Nat) {id : Nat}
    (hne : id ≠ self) (hlt : id < w.objs.length) :
    getCell (viewWorld w self c vs offset) id = getCell w id := by
  unfold getCell
  have : (viewWorld w self c vs offset).objs[id]? = w.objs[id]? := by
    simp [viewWorld, List.getElem?_append_left, hlt, List.getElem?_set, Ne.symm hne]
  rw [this]

theorem createView_ok_inv {w w1 : World} {self v viewSize offset : Nat}
    (h : Storage.createView w self viewSize offset = .ok w1 v) :
    ∃ c, getCell w self = some c ∧ 0 < c.useCount ∧
      (effSize (c.obj.size w) viewSize + offset) % SIZE_T_MOD ≤ c.obj.size w ∧
      w1 = viewWorld w self c (effSize (c.obj.size w) viewSize) offset ∧
      v = w.objs.length := by
  cases hc : getCell w self with
  | none => simp [Storage.createView, hc] at h
  | some c =>
    rw [createView_eq hc] at h
    refine ⟨c, rfl, ?_⟩
    by_cases h1 : (effSize (c.obj.size w) viewSize + offset) % SIZE_T_MOD > c.obj.size w
    · rw [if_pos h1] at h
      simp at h
    · rw [if_neg h1] at h
      by_cases h2 : c.useCount = 0
      · rw [if_pos h2] at h
        simp at h
      · rw [if_neg h2] at h
        simp only [Outcome.ok.injEq] at h
        exact ⟨Nat.pos_of_ne_zero h2, Nat.le_of_not_lt h1, h.1.symm, h.2.symm⟩

theorem createView_ok_of {w : World} {self : Nat} {c : Cell} (hc : getCell w self = some c)
    (hu : 0 < c.useCount) (viewSize offset : Nat)
    (hr : effSize (c.obj.size w) viewSize + offset ≤ c.obj.size w) :
    Storage.createView w self viewSize offset =
      .ok (viewWorld w self c (effSize (c.obj.size w) viewSize) offset) w.objs.length := by
  rw [createView_eq hc]
  have h1 : ¬ (effSize (c.obj.size w) viewSize + offset) % SIZE_T_MOD > c.obj.size w := by
    have := Nat.mod_le (effSize (c.obj.size w) viewSize + offset) SIZE_T_MOD
    omega
  rw [if_neg h1, if_neg (by omega)]

theorem sizeOf_view {w : World} {v owner vs : Nat} {d : Ptr} {k : Nat}
    (h : getCell w v = some ⟨.view owner vs d, k⟩) : sizeOf w v = vs := by
  simp [sizeOf, h, Storage.size]

theorem dataOf_view {w : World} {v owner vs : Nat} {d : Ptr} {k : Nat}
    (h : getCell w v = some ⟨.view owner vs d, k⟩) : dataOf w v = some d := by
  simp [dataOf, h, Storage.data]

theorem contents_view {w : World} {v owner vs : Nat} {d : Ptr} {k : Nat}
    (h : getCell w v = some ⟨.view owner vs d, k⟩) : contents w v = readBytes w d vs := by
  simp [contents, h, Storage.data, Storage.size]

theorem readBytes_congr {w1 w2 : World} (h : w1.mem = w2.mem) (p : Ptr) (n : Nat) :
    readBytes w1 p n = readBytes w2 p n := by
  simp [readBytes, h]

theorem createView_zero_zero_aux {w : World} {self : Nat} {c : Cell}
    (hc : getCell w self = some c) (hu : 0 < c.useCount) :
    ∃ w1 v, Storage.createView w self 0 0 = .ok w1 v ∧
      sizeOf w1 v = c.obj.size w ∧ dataOf w1 v = some c.obj.data := by
  have hok := createView_ok_of hc hu 0 0 (by simp [effSize])
  have hv := viewWorld_new w self c (effSize (c.obj.size w) 0) 0
  refine ⟨_, _, hok, ?_, ?_⟩
  · rw [sizeOf_view hv]; simp [effSize]
  · rw [dataOf_view hv, Ptr.add_zero]

theorem sizeOf_eq {w : World} {id : Nat} {c : Cell} (hc : getCell w id = some c) :
    sizeOf w id = c.obj.size w := by
  simp [sizeOf, hc]

/-! ## `createView` -/

/-- C1 (amended): for a parent held by a shared pointer, every non-zero
`viewSize` and every `offset` with `offset + viewSize <= parent.size()`,
`createView(viewSize, offset)` succeeds and returns a view with
`data() == parent.data() + offset` and `size() == viewSize`, which reads the
parent's bytes at that range. -/
theorem createView_in_range (w : World) (self : Nat) (c : Cell) (viewSize offset : Nat)
    (hc : getCell w self = some c) (hu : 0 < c.useCount)
    (hvs : viewSize ≠ 0) (hr : offset + viewSize ≤ c.obj.size w) :
    ∃ w1 v, Storage.createView w self viewSize offset = .ok w1 v ∧
      dataOf w1 v = some (c.obj.data + offset) ∧ sizeOf w1 v = viewSize ∧
      contents w1 v = readBytes w (c.obj.data + offset) viewSize := by
  have he : effSize (c.obj.size w) viewSize = viewSize := by
    unfold effSize; rw [if_neg (fun h => hvs h.symm)]
  have hok := createView_ok_of hc hu viewSize offset (by rw [he]; omega)
  rw [he] at hok
  have hv := viewWorld_new w self c viewSize offset
  refine ⟨_, _, hok, dataOf_view hv, sizeOf_view hv, ?_⟩
  rw [contents_view hv]
  exact readBytes_congr (viewWorld_mem w self c viewSize offset) _ _

/-- Witness of C1, the scenario of the specification: on
`MemoryStorage(4, {1, 2, 3, 4})`, `createView(2, 1)` has size 2 and reads
the bytes 2, 3. -/
theorem createView_in_range_witness :
    ∃ w1 v, Storage.createView sample4 0 2 1 = .ok w1 v ∧
      dataOf w1 v = some ⟨0, 1⟩ ∧ sizeOf w1 v = 2 ∧ contents w1 v = some [2, 3] :=
  createView_in_range sample4 0 ⟨.memory 0, 1⟩ 2 1 rfl (by decide) (by decide) (by decide)

/-- Counterexample to C1 as stated: on the parent of size 4 the pairs
(offset 0, viewSize 0) and (offset 1, viewSize 0) satisfy
`offset + viewSize <= 4`, yet the first call returns a view of size 4, not 0,
and the second throws "Invalid mapping range". -/
theorem createView_in_range_fails_at_zero :
    0 + 0 ≤ sizeOf sample4 0 ∧ 1 + 0 ≤ sizeOf sample4 0 ∧
    (∃ w1 v, Storage.createView sample4 0 0 0 = .ok w1 v ∧ sizeOf w1 v = 4) ∧
    Storage.createView sample4 0 0 1 = .throw sample4 .invalidMappingRange := by
  refine ⟨by decide, by decide, ⟨_, _, rfl, by decide⟩, by decide⟩

/-- C2 (the code at the failing input): on the parent of size 4,
`createView(2^64 - 1, 2)` has true sum `2^64 + 1 > 4`, but the `size_t` sum
wraps to 1, the range check passes and a `ViewStorage` of size `2^64 - 1` is
constructed. -/
theorem createView_overflow_accepted :
    sizeOf sample4 0 = 4 ∧ 2 + (2 ^ 64 - 1) > sizeOf sample4 0 ∧
    ∃ w1 v, Storage.createView sample4 0 (2 ^ 64 - 1) 2 = .ok w1 v ∧
      sizeOf w1 v = 2 ^ 64 - 1 ∧ dataOf w1 v = some ⟨0, 2⟩ := by
  refine ⟨by decide, by decide, _, _, rfl, by decide, by decide⟩

/-- C3 (amended): for every parent held by a shared pointer, of any size N
(zero included), `createView(0, 0)` succeeds and returns a view whose size is
N, not 0, and whose `data()` is the parent's `data()`. -/
theorem createView_zero_zero (w : World) (self : Nat) (c : Cell)
    (hc : getCell w self = some c) (hu : 0 < c.useCount) :
    ∃ w1 v, Storage.createView w self 0 0 = .ok w1 v ∧
      sizeOf w1 v = c.obj.size w ∧ dataOf w1 v = some c.obj.data :=
  createView_zero_zero_aux hc hu

/-- Witness of C3 on the parent of size 4, where the view has size 4 and not
0, and on an empty parent, where the view has size 0 = N. -/
theorem createView_zero_zero_witness :
    (∃ w1 v, Storage.createView sample4 0 0 0 = .ok w1 v ∧
      sizeOf w1 v = 4 ∧ dataOf w1 v = some ⟨0, 0⟩) ∧
    (∃ w1 v, Storage.createView sample0 0 0 0 = .ok w1 v ∧
      sizeOf w1 v = 0 ∧ dataOf w1 v = some ⟨0, 0⟩) :=
  ⟨createView_zero_zero sample4 0 ⟨.memory 0, 1⟩ rfl (by decide),
   createView_zero_zero sample0 0 ⟨.memory 0, 1⟩ rfl (by decide)⟩

/-- Counterexample to C3 as stated: a parent storage of size 4 that no
`shared_ptr` owns. `createView(0, 0)` passes the range check and then
`shared_from_this()` throws `std::bad_weak_ptr`; no view is returned. -/
theorem createView_zero_zero_fails_unshared :
    sizeOf unshared4 0 = 4 ∧
    Storage.createView unshared4 0 0 0 = .throw unshared4 .badWeakPtr := by
  refine ⟨by decide, by decide⟩

/-- C4 (amended): for a parent of size N held by a shared pointer and an
offset with `N + offset < 2^64`, `createView` with the default `viewSize` 0
works with the full size N: with offset 0 it returns a view of size N, with
any positive offset it throws "Invalid mapping range" (so no view of size
`N - offset` is ever produced). -/
theorem createView_default_size (w : World) (self : Nat) (c : Cell) (offset : Nat)
    (hc : getCell w self = some c) (hu : 0 < c.useCount)
    (hno : c.obj.size w + offset < SIZE_T_MOD) :
    (offset = 0 → ∃ w1 v, Storage.createView w self 0 offset = .ok w1 v ∧
      sizeOf w1 v = c.obj.size w) ∧
    (0 < offset → Storage.createView w self 0 offset = .throw w .invalidMappingRange) := by
  constructor
  · intro h0
    subst h0
    obtain ⟨w1, v, h, hs, _⟩ := createView_zero_zero_aux hc hu
    exact ⟨w1, v, h, hs⟩
  · intro hpos
    rw [createView_eq hc]
    have he : effSize (c.obj.size w) 0 = c.obj.size w := by simp [effSize]
    rw [he, Nat.mod_eq_of_lt hno, if_pos (by omega)]

/-- Witness of C4 on the parent of size 4: offset 0 gives a view of size 4,
offset 1 throws. -/
theorem createView_default_size_witness :
    (0 = 0 → ∃ w1 v, Storage.createView sample4 0 0 0 = .ok w1 v ∧ sizeOf w1 v = 4) ∧
    (0 < 1 → Storage.createView sample4 0 0 1 = .throw sample4 .invalidMappingRange) :=
  ⟨(createView_default_size sample4 0 ⟨.memory 0, 1⟩ 0 rfl (by decide) (by decide)).1,
   (createView_default_size sample4 0 ⟨.memory 0, 1⟩ 1 rfl (by decide) (by decide)).2⟩

/-- Counterexample to C4 as stated: on the parent of size 4, `createView`
with the default `viewSize` and offset 2 yields no view at all; it throws
"Invalid mapping range". -/
theorem createView_default_size_fails_at_offset :
    sizeOf sample4 0 = 4 ∧
    Storage.createView sample4 0 0 2 = .throw sample4 .invalidMappingRange := by
  refine ⟨by decide, by decide⟩

/-- C10: views of views stay inside the root. If `V = P.createView(s1, o1)`
and `W = V.createView(s2, o2)` both succeed and neither sum (after the
substitution for a zero size) overflows `size_t`, then
`W.data() == P.data() + o1 + o2`, `o1 + o2 + W.size() <= P.size()`, and
`P.createView(W.size(), o1 + o2)` succeeds with the same `data()`, the same
`size()` and the same bytes as `W`. -/
theorem createView_nested (w w1 w2 : World) (P V W s1 o1 s2 o2 : Nat)
    (h1 : Storage.createView w P s1 o1 = .ok w1 V)
    (h2 : Storage.createView w1 V s2 o2 = .ok w2 W)
    (hno1 : effSize (sizeOf w P) s1 + o1 < SIZE_T_MOD)
    (hno2 : effSize (sizeOf w1 V) s2 + o2 < SIZE_T_MOD) :
    ∃ d, dataOf w P = some d ∧ dataOf w2 W = some (d + o1 + o2) ∧
      o1 + o2 + sizeOf w2 W ≤ sizeOf w P ∧
      ∃ w3 X, Storage.createView w2 P (sizeOf w2 W) (o1 + o2) = .ok w3 X ∧
        dataOf w3 X = dataOf w2 W ∧ sizeOf w3 X = sizeOf w2 W ∧
        contents w3 X = contents w2 W := by
  obtain ⟨c, hc, hu, hr1, hw1, hV⟩ := createView_ok_inv h1
  rw [sizeOf_eq hc] at hno1
  rw [Nat.mod_eq_of_lt hno1] at hr1
  have hVcell : getCell w1 V = some ⟨.view P (effSize (c.obj.size w) s1) (c.obj.data + o1), 1⟩ := by
    rw [hw1, hV]; exact viewWorld_new w P c _ o1
  obtain ⟨c2, hc2, hu2, hr2, hw2, hW⟩ := createView_ok_inv h2
  rw [hVcell] at hc2
  simp only [Option.some.injEq] at hc2
  subst hc2
  rw [sizeOf_view hVcell] at hno2
  replace hr2 : (effSize (effSize (c.obj.size w) s1) s2 + o2) % SIZE_T_MOD
      ≤ effSize (c.obj.size w) s1 := hr2
  rw [Nat.mod_eq_of_lt hno2] at hr2
  replace hw2 : w2 = viewWorld w1 V ⟨.view P (effSize (c.obj.size w) s1) (c.obj.data + o1), 1⟩
      (effSize (effSize (c.obj.size w) s1) s2) o2 := hw2
  have hWcell : getCell w2 W = some ⟨.view V (effSize (effSize (c.obj.size w) s1) s2)
      (c.obj.data + o1 + o2), 1⟩ := by
    rw [hw2, hW]; exact viewWorld_new w1 V _ _ o2
  have hmem1 : w1.mem = w.mem := by rw [hw1]; rfl
  have hmem2 : w2.mem = w.mem := by rw [hw2]; exact hmem1
  have hPlt : P < w.objs.length := getCell_lt hc
  have hP1 : getCell w1 P = some { c with useCount := c.useCount + 1 } := by
    rw [hw1]; exact viewWorld_self hc _ _
  have hP2 : getCell w2 P = some { c with useCount := c.useCount + 1 } := by
    rw [hw2, viewWorld_other _ _ _ (by omega) (getCell_lt hP1)]
    exact hP1
  have hsz : Storage.size w2 c.obj = Storage.size w c.obj := size_congr _ hmem2
  have he : effSize (c.obj.size w) (effSize (effSize (c.obj.size w) s1) s2)
      = effSize (effSize (c.obj.size w) s1) s2 := by
    unfold effSize at hr1 hr2 ⊢
    split_ifs at hr1 hr2 ⊢ <;> omega
  refine ⟨c.obj.data, by simp [dataOf, hc], dataOf_view hWcell, ?_, ?_⟩
  · rw [sizeOf_view hWcell, sizeOf_eq hc]; omega
  · rw [sizeOf_view hWcell]
    have hok := createView_ok_of hP2 (by simp) (effSize (effSize (c.obj.size w) s1) s2)
      (o1 + o2) (by simp only [hsz]; rw [he]; omega)
    simp only [hsz] at hok
    rw [he] at hok
    have hX := viewWorld_new w2 P { c with useCount := c.useCount + 1 }
      (effSize (effSize (c.obj.size w) s1) s2) (o1 + o2)
    refine ⟨_, _, hok, ?_, sizeOf_view hX, ?_⟩
    · rw [dataOf_view hX, dataOf_view hWcell, Ptr.add_add]
    · rw [contents_view hX, contents_view hWcell, Ptr.add_add]
      exact readBytes_congr (viewWorld_mem _ _ _ _ _) _ _

/-- Witness of C10 on the parent of size 4: `createView(3, 1)` then
`createView(2, 1)` gives a view at offset 2 of size 2. -/
theorem createView_nested_witness :
    ∃ d, dataOf sample4 0 = some d ∧
      dataOf (viewWorld (viewWorld sample4 0 ⟨.memory 0, 1⟩ 3 1) 1
        ⟨.view 0 3 ⟨0, 1⟩, 1⟩ 2 1) 2 = some (d + 1 + 1) ∧
      1 + 1 + sizeOf (viewWorld (viewWorld sample4 0 ⟨.memory 0, 1⟩ 3 1) 1
        ⟨.view 0 3 ⟨0, 1⟩, 1⟩ 2 1) 2 ≤ sizeOf sample4 0 ∧
      ∃ w3 X, Storage.createView (viewWorld (viewWorld sample4 0 ⟨.memory 0, 1⟩ 3 1) 1
          ⟨.view 0 3 ⟨0, 1⟩, 1⟩ 2 1) 0
          (sizeOf (viewWorld (viewWorld sample4 0 ⟨.memory 0, 1⟩ 3 1) 1
            ⟨.view 0 3 ⟨0, 1⟩, 1⟩ 2 1) 2) (1 + 1) = .ok w3 X ∧
        dataOf w3 X = dataOf (viewWorld (viewWorld sample4 0 ⟨.memory 0, 1⟩ 3 1) 1
          ⟨.view 0 3 ⟨0, 1⟩, 1⟩ 2 1) 2 ∧
        sizeOf w3 X = sizeOf (viewWorld (viewWorld sample4 0 ⟨.memory 0, 1⟩ 3 1) 1
          ⟨.view 0 3 ⟨0, 1⟩, 1⟩ 2 1) 2 ∧
        contents w3 X = contents (viewWorld (viewWorld sample4 0 ⟨.memory 0, 1⟩ 3 1) 1
          ⟨.view 0 3 ⟨0, 1⟩, 1⟩ 2 1) 2 :=
  createView_nested sample4 (viewWorld sample4 0 ⟨.memory 0, 1⟩ 3 1)
    (viewWorld (viewWorld sample4 0 ⟨.memory 0, 1⟩ 3 1) 1 ⟨.view 0 3 ⟨0, 1⟩, 1⟩ 2 1)
    0 1 2 3 1 2 1 (by decide) (by decide) (by decide) (by decide)

/-! ## `toMemoryStorage` -/

theorem readBytes_eq_of_block {w1 w2 : World} {p : Ptr}
    (h : w1.mem[p.block]? = w2.mem[p.block]?) (n : Nat) :
    readBytes w1 p n = readBytes w2 p n := by
  simp [readBytes, h]

theorem readBytes_some {w : World} {p : Ptr} {n : Nat} {bs : List Nat}
    (h : readBytes w p n = some bs) :
    p.block < w.mem.length ∧ bs.length = n ∧
    ∃ b all, w.mem[p.block]? = some b ∧ b.bytes? = some all ∧ p.off + n ≤ all.length ∧
      bs = (all.drop p.off).take n := by
  unfold readBytes at h
  cases hb : w.mem[p.block]? with
  | none => simp [hb] at h
  | some b =>
    rw [hb] at h
    cases hbs : b.bytes? with
    | none => simp [hbs] at h
    | some all =>
      simp only [hbs] at h
      by_cases hle : p.off + n ≤ all.length
      · rw [if_pos hle] at h
        simp only [Option.some.injEq] at h
        refine ⟨?_, ?_, b, all, rfl, hbs, hle, h.symm⟩
        · by_contra hlt
          rw [List.getElem?_eq_none (Nat.le_of_not_lt hlt)] at hb
          simp at hb
        · rw [← h, List.length_take, List.length_drop]
          omega
      · rw [if_neg hle] at h
        simp at h

theorem contents_some {w : World} {id : Nat} {bs : List Nat} (h : contents w id = some bs) :
    ∃ c, getCell w id = some c ∧ readBytes w c.obj.data (c.obj.size w) = some bs := by
  unfold contents at h
  cases hc : getCell w id with
  | none => simp [hc] at h
  | some c =>
    rw [hc] at h
    exact ⟨c, rfl, h⟩

theorem sizeOf_memory {w : World} {id buf k : Nat} {bs : List Nat}
    (h : getCell w id = some ⟨.memory buf, k⟩) (hb : w.mem[buf]? = some (.heap bs)) :
    sizeOf w id = bs.length := by
  simp [sizeOf, h, Storage.size, hb]

theorem contents_memory {w : World} {id buf k : Nat} {bs : List Nat}
    (h : getCell w id = some ⟨.memory buf, k⟩) (hb : w.mem[buf]? = some (.heap bs)) :
    contents w id = some bs := by
  simp [contents, h, Storage.size, Storage.data, readBytes, hb, Block.bytes?]

theorem releaseAux_shared {w : World} {id : Nat} {c : Cell} (fuel : Nat)
    (hc : getCell w id = some c) (hu : 1 < c.useCount) :
    releaseAux (fuel + 1) w id
      = { w with objs := w.objs.set id (some { c with useCount := c.useCount - 1 }) } := by
  simp only [releaseAux, hc]
  rw [if_neg (by omega)]

theorem release_shared {w : World} {id : Nat} {c : Cell}
    (hc : getCell w id = some c) (hu : 1 < c.useCount) :
    release w id
      = { w with objs := w.objs.set id (some { c with useCount := c.useCount - 1 }) } := by
  have hlt := getCell_lt hc
  unfold release
  obtain ⟨n, hn⟩ : ∃ n, w.objs.length = n + 1 := ⟨w.objs.length - 1, by omega⟩
  rw [hn]
  exact releaseAux_shared n hc hu

theorem releaseMany_shared (k : Nat) : ∀ (w : World) (id : Nat) (c : Cell),
    getCell w id = some c → k < c.useCount →
    (releaseMany k w id).mem = w.mem ∧
    getCell (releaseMany k w id) id = some { c with useCount := c.useCount - k } ∧
    ∀ j, j ≠ id → getCell (releaseMany k w id) j = getCell w j := by
  induction k with
  | zero =>
    intro w id c hc _
    exact ⟨rfl, by simpa [releaseMany] using hc, fun j _ => rfl⟩
  | succ k ih =>
    intro w id c hc hk
    have hlt := getCell_lt hc
    have hrel := release_shared hc (by omega)
    have hc1 : getCell (release w id) id = some { c with useCount := c.useCount - 1 } := by
      rw [hrel]
      apply getCell_of_getElem
      simp [List.getElem?_set, hlt]
    obtain ⟨hm, hself, hoth⟩ := ih (release w id) id _ hc1 (by simp only; omega)
    refine ⟨?_, ?_, ?_⟩
    · show (releaseMany k (release w id) id).mem = w.mem
      rw [hm, hrel]
    · show getCell (releaseMany k (release w id) id) id = _
      rw [hself]
      simp only [Option.some.injEq, Cell.mk.injEq, true_and]
      omega
    · intro j hj
      show getCell (releaseMany k (release w id) id) j = _
      rw [hoth j hj, hrel]
      unfold getCell
      simp [List.getElem?_set, Ne.symm hj]

theorem readBytes_sub {w : World} {p : Ptr} {n : Nat} {bs : List Nat}
    (h : readBytes w p n = some bs) (o m : Nat) (hom : o + m ≤ n) :
    readBytes w (p + o) m = some ((bs.drop o).take m) := by
  obtain ⟨_, _, b, all, hb, hall, hle, hbs⟩ := readBytes_some h
  have hblock : (p + o).block = p.block := rfl
  have hoff : (p + o).off = p.off + o := rfl
  unfold readBytes
  rw [hblock, hb]
  simp only [hall, hoff]
  rw [if_pos (by omega), hbs]
  simp only [Option.some.injEq]
  rw [List.drop_take, List.take_take, List.drop_drop]
  congr 1
  omega

/-- A view whose range check did not wrap keeps its parent alive. The
`ViewStorage` returned by `P.createView(...)` has exactly `P` as `_owner` and
adds one to the use count of `P`. When any number `k` of the references that
existed before are dropped (all of them for `k` equal to the old use count),
`P` is still there with a use count of at least one, its bytes are unchanged,
and reading the view's `size()` bytes at its `data()` yields the bytes of `P`
at the view's range. -/
theorem view_in_range_keeps_parent_alive (w w1 : World) (P V viewSize offset : Nat) (c : Cell)
    (bs : List Nat) (hc : getCell w P = some c) (hv : contents w P = some bs)
    (h : Storage.createView w P viewSize offset = .ok w1 V)
    (hno : effSize (c.obj.size w) viewSize + offset < SIZE_T_MOD) :
    getCell w1 V
      = some ⟨.view P (effSize (c.obj.size w) viewSize) (c.obj.data + offset), 1⟩ ∧
    getCell w1 P = some { c with useCount := c.useCount + 1 } ∧
    ∀ k, k ≤ c.useCount →
      getCell (releaseMany k w1 P) P = some { c with useCount := c.useCount + 1 - k } ∧
      1 ≤ c.useCount + 1 - k ∧
      getCell (releaseMany k w1 P) V
        = some ⟨.view P (effSize (c.obj.size w) viewSize) (c.obj.data + offset), 1⟩ ∧
      contents (releaseMany k w1 P) P = some bs ∧
      contents (releaseMany k w1 P) V
        = some ((bs.drop offset).take (effSize (c.obj.size w) viewSize)) := by
  obtain ⟨c1, hc1, hu, hr, hw1, hV⟩ := createView_ok_inv h
  rw [hc] at hc1
  simp only [Option.some.injEq] at hc1
  subst hc1
  rw [Nat.mod_eq_of_lt hno] at hr
  have hPlt := getCell_lt hc
  have hVcell : getCell w1 V
      = some ⟨.view P (effSize (c.obj.size w) viewSize) (c.obj.data + offset), 1⟩ := by
    rw [hw1, hV]; exact viewWorld_new w P c _ offset
  have hPcell : getCell w1 P = some { c with useCount := c.useCount + 1 } := by
    rw [hw1]; exact viewWorld_self hc _ _
  have hmem1 : w1.mem = w.mem := by rw [hw1]; rfl
  refine ⟨hVcell, hPcell, ?_⟩
  intro k hk
  obtain ⟨hm, hself, hoth⟩ := releaseMany_shared k w1 P _ hPcell (by simp only; omega)
  have hmem : (releaseMany k w1 P).mem = w.mem := by rw [hm, hmem1]
  have hrd : readBytes w c.obj.data (c.obj.size w) = some bs := by
    simpa [contents, hc] using hv
  have hVk := hoth V (by omega)
  rw [hVcell] at hVk
  refine ⟨hself, by omega, hVk, ?_, ?_⟩
  · simp only [contents, hself]
    rw [size_congr _ hmem, readBytes_congr hmem, hrd]
  · rw [contents_view hVk, readBytes_congr hmem]
    exact readBytes_sub hrd offset _ (by omega)

/-- C8 (the code at the failing input): on the parent of size 4 with one
owner, `createView(2^64 - 1, 2)` returns a view through the wrapped range
check. The view does hold the parent as `_owner` and the parent's use count
is 2, and after the other owner is released the parent is still alive with
its four bytes; but the view's `size()` bytes at its `data()` are not inside
the parent's buffer, so reading them is not a read of that buffer, before
and after the release. -/
theorem view_past_parent_buffer :
    contents sample4 0 = some [1, 2, 3, 4] ∧
    ∃ w1 v, Storage.createView sample4 0 (2 ^ 64 - 1) 2 = .ok w1 v ∧
      getCell w1 v = some ⟨.view 0 (2 ^ 64 - 1) ⟨0, 2⟩, 1⟩ ∧
      getCell w1 0 = some ⟨.memory 0, 2⟩ ∧
      contents w1 0 = some [1, 2, 3, 4] ∧ contents w1 v = none ∧
      getCell (release w1 0) 0 = some ⟨.memory 0, 1⟩ ∧
      contents (release w1 0) 0 = some [1, 2, 3, 4] ∧
      contents (release w1 0) v = none := by
  refine ⟨by decide, _, _, rfl, by decide, by decide, by decide, by decide, by decide,
    by decide, by decide⟩

/-! ## The platform calls -/

theorem GetFileSize_bounds (w : World) (hd : HANDLE) :
    (GetFileSize w hd).2.1 < DWORD_MOD ∧ (GetFileSize w hd).2.2 < DWORD_MOD := by
  have hpos : 0 < DWORD_MOD := by decide
  have hinv : INVALID_FILE_SIZE < DWORD_MOD ∧ 0 < DWORD_MOD := by decide
  unfold GetFileSize
  simp only []
  repeat' split
  all_goals first | exact hinv | exact ⟨Nat.mod_lt _ hpos, Nat.mod_lt _ hpos⟩

theorem CreateFileMapping_trace (w : World) (hd : HANDLE) (wr : Bool) (high low : Nat) :
    (CreateFileMapping w hd wr high low).1.trace
      = w.trace ++ [.createFileMapping hd wr high low] := by
  unfold CreateFileMapping
  simp only []
  repeat' split
  all_goals rfl

theorem MapViewOfFile_trace (w : World) (hd : HANDLE) (wr : Bool) :
    (MapViewOfFile w hd wr).1.trace = w.trace ++ [.mapViewOfFile hd wr] := by
  unfold MapViewOfFile
  simp only []
  repeat' split
  all_goals rfl

theorem assemble_size {high low : Nat} (hh : high < DWORD_MOD) (hl : low < DWORD_MOD) :
    ((high <<< 32) % SIZE_T_MOD) ||| low = high * 2 ^ 32 + low ∧
    (high <<< 32) % SIZE_T_MOD = high <<< 32 := by
  have h1 : high <<< 32 = high * 2 ^ 32 := Nat.shiftLeft_eq high 32
  have h2 : high * 2 ^ 32 < SIZE_T_MOD := by
    unfold SIZE_T_MOD
    unfold DWORD_MOD at hh
    omega
  rw [h1, Nat.mod_eq_of_lt h2]
  refine ⟨?_, rfl⟩
  have h3 := @Nat.mul_add_lt_is_or 32 low hl high
  rw [Nat.mul_comm] at h3
  exact h3.symm

/-! ## Step lemmas for the platform calls -/

theorem faulty_of_calm {w : World} (h : calm w = true) : faulty w = false := by
  unfold calm at h
  unfold faulty
  rw [List.all_eq_true] at h
  by_contra hc
  simp only [Bool.not_eq_false] at hc
  have hm : w.trace.length ∈ w.faults := by simpa using hc
  have := h _ hm
  simp at this

theorem calm_step {w w1 : World} (h : calm w = true) (hf : w1.faults = w.faults)
    (ht : w.trace.length ≤ w1.trace.length) : calm w1 = true := by
  unfold calm at h ⊢
  rw [List.all_eq_true] at h ⊢
  intro n hn
  rw [hf] at hn
  have := h n hn
  simp only [decide_eq_true_eq] at this ⊢
  omega

theorem CreateFile_open {w : World} {path : String} {bs : List Nat} (wr : Bool)
    (hfc : fileContent w path = some bs) :
    CreateFile w path wr .OPEN_EXISTING =
      if faulty w then (logCall w (.createFile path wr .OPEN_EXISTING), INVALID_HANDLE_VALUE)
      else ({ w with handles := w.handles ++ [some (.file path wr)],
                     trace := w.trace ++ [.createFile path wr .OPEN_EXISTING] },
            .h w.handles.length) := by
  have h1 : fileContent (logCall w (.createFile path wr .OPEN_EXISTING)) path = some bs := hfc
  simp only [CreateFile, h1]
  rfl

theorem CreateFile_always (w : World) (path : String) (wr : Bool) :
    CreateFile w path wr .CREATE_ALWAYS =
      if faulty w then (logCall w (.createFile path wr .CREATE_ALWAYS), INVALID_HANDLE_VALUE)
      else ({ w with files := (path, []) :: w.files.filter (fun e => e.1 != path),
                     handles := w.handles ++ [some (.file path wr)],
                     trace := w.trace ++ [.createFile path wr .CREATE_ALWAYS] },
            .h w.handles.length) := rfl

theorem GetFileSize_file {w : World} {hf : HANDLE} {path : String} {fw : Bool}
    {bs : List Nat} (hh : getHandle w hf = some (.file path fw))
    (hfc : fileContent w path = some bs) :
    GetFileSize w hf =
      if faulty w then (logCall w (.getFileSize hf), INVALID_FILE_SIZE, 0)
      else (logCall w (.getFileSize hf), bs.length % DWORD_MOD,
        (bs.length / DWORD_MOD) % DWORD_MOD) := by
  simp only [GetFileSize, hh, hfc]

theorem CreateFileMapping_file {w : World} {hf : HANDLE} {path : String} {fw : Bool}
    {bs : List Nat} (wr : Bool) (high low : Nat)
    (hh : getHandle w hf = some (.file path fw)) (hfc : fileContent w path = some bs) :
    CreateFileMapping w hf wr high low =
      if faulty w then (logCall w (.createFileMapping hf wr high low), .null)
      else
        let req := high * DWORD_MOD + low
        let maxSize := if req = 0 then bs.length else req
        if maxSize = 0 then (logCall w (.createFileMapping hf wr high low), .null)
        else if wr && !fw then (logCall w (.createFileMapping hf wr high low), .null)
        else if maxSize > bs.length then
          if wr then
            newHandle (setFile (logCall w (.createFileMapping hf wr high low)) path
              (bs ++ List.replicate (maxSize - bs.length) 0)) (.mapping path maxSize wr)
          else (logCall w (.createFileMapping hf wr high low), .null)
        else newHandle (logCall w (.createFileMapping hf wr high low))
          (.mapping path maxSize wr) := by
  simp only [CreateFileMapping, hh, hfc]

theorem MapViewOfFile_null (w : World) (wr : Bool) :
    (MapViewOfFile w .null wr).2 = none := by
  unfold MapViewOfFile
  simp only [getHandle]
  split <;> rfl

theorem MapViewOfFile_mapping {w : World} {hm : HANDLE} {path : String} {maxSize : Nat}
    {mw : Bool} {bs : List Nat} (wr : Bool)
    (hh : getHandle w hm = some (.mapping path maxSize mw))
    (hfc : fileContent w path = some bs) (hacc : (wr && !mw) = false) :
    MapViewOfFile w hm wr =
      if faulty w then (logCall w (.mapViewOfFile hm wr), none)
      else ({ w with mem := w.mem ++ [.mapped path wr (bs.take maxSize)],
                     trace := w.trace ++ [.mapViewOfFile hm wr] },
            some ⟨w.mem.length, 0⟩) := by
  simp only [MapViewOfFile, hh, hfc, hacc]
  rfl

theorem ctor_eq {w wA wB wC wD : World} {path : String} {hf hm : HANDLE} {lo hi : Nat}
    {mp : Option Ptr}
    (hA : CreateFile w path false .OPEN_EXISTING = (wA, hf))
    (hB : GetFileSize wA hf = (wB, lo, hi))
    (hC : CreateFileMapping wB hf false hi lo = (wC, hm))
    (hD : MapViewOfFile wC hm false = (wD, mp)) :
    FileStorage.ctor w path =
      if hf = INVALID_HANDLE_VALUE then .throw wA .unableToCreateFile
      else if INVALID_FILE_SIZE = lo then .throw wB .unableToFetchFileSize
      else if hm = INVALID_HANDLE_VALUE then .throw wC .unableToMapFile
      else
        mp.elim (.throw wD .unableToCreateMapView)
          (fun m => .ok wD (.file hf hm (((hi <<< 32) % SIZE_T_MOD) ||| lo) m)) := by
  simp only [FileStorage.ctor, hA, hB, hC, hD]
  cases mp <;> rfl

theorem split_size {n : Nat} (h : n < SIZE_T_MOD) :
    (n / DWORD_MOD) % DWORD_MOD = n / DWORD_MOD ∧
    (n / DWORD_MOD) * DWORD_MOD + n % DWORD_MOD = n ∧
    (n >>> 32) % DWORD_MOD = n / DWORD_MOD := by
  unfold SIZE_T_MOD at h
  unfold DWORD_MOD
  have h1 : n / 2 ^ 32 < 2 ^ 32 := by omega
  refine ⟨Nat.mod_eq_of_lt h1, by omega, ?_⟩
  rw [Nat.shiftRight_eq_div_pow]
  exact Nat.mod_eq_of_lt h1

theorem ctor_tail_null {wC wD : World} {mp : Option Ptr} (hf : HANDLE) (sz : Nat)
    (hD : MapViewOfFile wC .null false = (wD, mp)) :
    (if HANDLE.null = INVALID_HANDLE_VALUE then Outcome.throw wC Error.unableToMapFile
      else mp.elim (Outcome.throw wD Error.unableToCreateMapView)
        (fun m => Outcome.ok wD (Storage.file hf HANDLE.null sz m)))
      = Outcome.throw wD Error.unableToCreateMapView := by
  have h0 := MapViewOfFile_null wC false
  rw [hD] at h0
  simp only at h0
  rw [h0]
  simp [INVALID_HANDLE_VALUE, Option.elim]

theorem ctor_spec {w : World} {path : String} {bs : List Nat}
    (hfc : fileContent w path = some bs) (hlen : bs.length < SIZE_T_MOD) :
    (∀ w1 s, FileStorage.ctor w path = .ok w1 s →
      s.size w1 = bs.length ∧ readBytes w1 s.data bs.length = some bs) ∧
    (calm w = true → 0 < bs.length → bs.length % DWORD_MOD ≠ INVALID_FILE_SIZE →
      ∃ w1 s, FileStorage.ctor w path = .ok w1 s) := by
  obtain ⟨hhi, hsum, _⟩ := split_size hlen
  rcases hA : CreateFile w path false .OPEN_EXISTING with ⟨wA, hf⟩
  rcases hB : GetFileSize wA hf with ⟨wB, lo, hi⟩
  rcases hC : CreateFileMapping wB hf false hi lo with ⟨wC, hm⟩
  rcases hD : MapViewOfFile wC hm false with ⟨wD, mp⟩
  rw [ctor_eq hA hB hC hD]
  rw [CreateFile_open false hfc] at hA
  by_cases hf0 : faulty w = true
  · rw [if_pos hf0] at hA
    simp only [Prod.mk.injEq] at hA
    rw [if_pos hA.2.symm]
    exact ⟨by simp, fun hc => by rw [faulty_of_calm hc] at hf0; simp at hf0⟩
  rw [if_neg hf0] at hA
  simp only [Prod.mk.injEq] at hA
  obtain ⟨hwA, hhf⟩ := hA
  have hAh : getHandle wA hf = some (.file path false) := by
    rw [← hwA, ← hhf]; simp [getHandle]
  have hAf : fileContent wA path = some bs := by rw [← hwA]; exact hfc
  have hfv : hf ≠ INVALID_HANDLE_VALUE := by rw [← hhf]; simp [INVALID_HANDLE_VALUE]
  have hAc : calm w = true → calm wA = true := fun hc =>
    calm_step hc (by rw [← hwA]) (by rw [← hwA]; simp)
  rw [if_neg hfv]
  rw [GetFileSize_file hAh hAf] at hB
  by_cases hf1 : faulty wA = true
  · rw [if_pos hf1] at hB
    simp only [Prod.mk.injEq] at hB
    rw [if_pos hB.2.1]
    exact ⟨by simp, fun hc => by rw [faulty_of_calm (hAc hc)] at hf1; simp at hf1⟩
  rw [if_neg hf1] at hB
  simp only [Prod.mk.injEq] at hB
  obtain ⟨hwB, hlo, hhi2⟩ := hB
  rw [hhi] at hhi2
  by_cases hs : INVALID_FILE_SIZE = lo
  · rw [if_pos hs]
    exact ⟨by simp, fun _ _ hne => absurd (hlo.trans hs.symm) hne⟩
  rw [if_neg hs]
  have hBh : getHandle wB hf = some (.file path false) := by rw [← hwB]; exact hAh
  have hBf : fileContent wB path = some bs := by rw [← hwB]; exact hAf
  have hBc : calm w = true → calm wB = true := fun hc =>
    calm_step (hAc hc) (by rw [← hwB]; rfl) (by rw [← hwB]; simp [logCall])
  have hreq : hi * DWORD_MOD + lo = bs.length := by rw [← hlo, ← hhi2]; exact hsum
  rw [CreateFileMapping_file false hi lo hBh hBf] at hC
  simp only [hreq, ite_self, Bool.false_and, gt_iff_lt, lt_self_iff_false, if_false,
    Bool.false_eq_true] at hC
  by_cases hf2 : faulty wB = true
  · rw [if_pos hf2] at hC
    simp only [Prod.mk.injEq] at hC
    rw [← hC.2] at hD ⊢
    rw [ctor_tail_null hf _ hD]
    exact ⟨by simp, fun hc => by rw [faulty_of_calm (hBc hc)] at hf2; simp at hf2⟩
  rw [if_neg hf2] at hC
  by_cases hz : bs.length = 0
  · rw [if_pos hz] at hC
    simp only [Prod.mk.injEq] at hC
    rw [← hC.2] at hD ⊢
    rw [ctor_tail_null hf _ hD]
    exact ⟨by simp, fun _ hpos => by omega⟩
  rw [if_neg hz] at hC
  simp only [newHandle, Prod.mk.injEq] at hC
  obtain ⟨hwC, hhm⟩ := hC
  have hmv : hm ≠ INVALID_HANDLE_VALUE := by rw [← hhm]; simp [INVALID_HANDLE_VALUE]
  rw [if_neg hmv]
  have hCh : getHandle wC hm = some (.mapping path bs.length false) := by
    rw [← hwC, ← hhm]; simp [getHandle, logCall]
  have hCf : fileContent wC path = some bs := by rw [← hwC]; exact hBf
  have hCc : calm w = true → calm wC = true := fun hc =>
    calm_step (hBc hc) (by rw [← hwC]; rfl) (by rw [← hwC]; simp [logCall])
  rw [MapViewOfFile_mapping false hCh hCf rfl] at hD
  by_cases hf3 : faulty wC = true
  · rw [if_pos hf3] at hD
    simp only [Prod.mk.injEq] at hD
    rw [← hD.2]
    exact ⟨by simp [Option.elim], fun hc => by rw [faulty_of_calm (hCc hc)] at hf3; simp at hf3⟩
  rw [if_neg hf3] at hD
  simp only [Prod.mk.injEq] at hD
  obtain ⟨hwD, hmp⟩ := hD
  rw [← hmp]
  simp only [Option.elim]
  refine ⟨?_, fun _ _ _ => ⟨_, _, rfl⟩⟩
  intro w1 s h
  simp only [Outcome.ok.injEq] at h
  obtain ⟨h1, h2⟩ := h
  rw [← h1, ← h2]
  have hlo2 : lo < DWORD_MOD := by rw [← hlo]; exact Nat.mod_lt _ (by decide)
  have hhi3 : hi < DWORD_MOD := by rw [← hhi2, ← hhi]; exact Nat.mod_lt _ (by decide)
  obtain ⟨hasm, _⟩ := assemble_size hhi3 hlo2
  have hD2 : (2 : Nat) ^ 32 = DWORD_MOD := rfl
  constructor
  · simp only [Storage.size]
    rw [hasm, hD2, hreq]
  · rw [← hwD]
    simp [Storage.data, readBytes, Block.bytes?]

theorem CloseHandle_frame (w : World) (hd : HANDLE) :
    (CloseHandle w hd).files = w.files ∧ (CloseHandle w hd).faults = w.faults ∧
    (CloseHandle w hd).trace = w.trace ++ [.closeHandle hd] ∧
    (CloseHandle w hd).mem = w.mem ∧ (CloseHandle w hd).objs = w.objs := by
  unfold CloseHandle
  simp only []
  repeat' split
  all_goals exact ⟨rfl, rfl, rfl, rfl, rfl⟩

theorem create_eq {w wA wB wC : World} {path : String} {hf hm : HANDLE} {size : Nat}
    {data : Ptr} {mp : Option Ptr}
    (hA : CreateFile w path true .CREATE_ALWAYS = (wA, hf))
    (hB : CreateFileMapping wA hf true ((size >>> 32) % DWORD_MOD) (size % DWORD_MOD)
      = (wB, hm))
    (hC : MapViewOfFile wB hm true = (wC, mp)) :
    FileStorage.create w path size data =
      if hf = INVALID_HANDLE_VALUE then .throw wA .unableToCreateFile
      else if hm = INVALID_HANDLE_VALUE then .throw wB .unableToMapFile
      else
        mp.elim (.throw wC .unableToCreateMapView) (fun dest =>
          (memcpy wC dest data size).elim (.throw wC .accessViolation) (fun w4 =>
            FileStorage.make_shared
              (CloseHandle (CloseHandle (UnmapViewOfFile w4 dest) hm) hf) path)) := by
  simp only [FileStorage.create, hA, hB, hC]
  cases mp with
  | none => rfl
  | some dest =>
    simp only [Option.elim]
    cases memcpy wC dest data size <;> rfl

theorem UnmapViewOfFile_writable {w : World} {blk : Nat} {path : String}
    {bs old : List Nat} (hb : w.mem[blk]? = some (.mapped path true bs))
    (hfc : fileContent w path = some old) :
    UnmapViewOfFile w ⟨blk, 0⟩ =
      { w with mem := w.mem.set blk .freed,
               files := (path, bs ++ old.drop bs.length) :: w.files.filter (fun e => e.1 != path),
               trace := w.trace ++ [.unmapViewOfFile ⟨blk, 0⟩] } := by
  have hfc1 : fileContent (logCall w (.unmapViewOfFile ⟨blk, 0⟩)) path = some old := hfc
  simp only [UnmapViewOfFile, hb, hfc1]
  rfl

theorem write_phase {wC : World} {m : List Block} {path : String} {zs zs0 bs : List Nat}
    {data : Ptr} (hmem : wC.mem = m ++ [.mapped path true zs]) (hzs : zs.length = bs.length)
    (hfc : fileContent wC path = some zs0) (hz0 : zs0.length ≤ bs.length)
    (hrd : readBytes wC data bs.length = some bs) :
    ∃ w4, memcpy wC ⟨m.length, 0⟩ data bs.length = some w4 ∧
      fileContent (UnmapViewOfFile w4 ⟨m.length, 0⟩) path = some bs ∧
      (UnmapViewOfFile w4 ⟨m.length, 0⟩).faults = wC.faults ∧
      (UnmapViewOfFile w4 ⟨m.length, 0⟩).trace
        = wC.trace ++ [.unmapViewOfFile ⟨m.length, 0⟩] := by
  have hb : ({ wC with mem := m ++ [.mapped path true bs] } : World).mem[m.length]?
      = some (.mapped path true bs) := by simp
  have hfc4 : fileContent ({ wC with mem := m ++ [.mapped path true bs] } : World) path
      = some zs0 := hfc
  refine ⟨{ wC with mem := m ++ [.mapped path true bs] }, ?_, ?_, ?_, ?_⟩
  · simp [memcpy, hrd, writeBytes, hmem, Block.bytes?, Block.withBytes, hzs]
  · rw [UnmapViewOfFile_writable hb hfc4]
    simp [fileContent, List.lookup_cons, List.drop_eq_nil_of_le hz0]
  · rw [UnmapViewOfFile_writable hb hfc4]
  · rw [UnmapViewOfFile_writable hb hfc4]

theorem create_tail_null {wB wC : World} {mp : Option Ptr} (k : Ptr → Outcome Nat)
    (hC : MapViewOfFile wB .null true = (wC, mp)) :
    (if HANDLE.null = INVALID_HANDLE_VALUE then Outcome.throw wB Error.unableToMapFile
      else mp.elim (Outcome.throw wC Error.unableToCreateMapView) k)
      = Outcome.throw wC Error.unableToCreateMapView := by
  have h0 := MapViewOfFile_null wB true
  rw [hC] at h0
  simp only at h0
  rw [h0]
  simp [INVALID_HANDLE_VALUE, Option.elim]

theorem ctor_ok_file {w w1 : World} {path : String} {s : Storage}
    (h : FileStorage.ctor w path = .ok w1 s) : ∃ f m sz p, s = .file f m sz p := by
  rcases hA : CreateFile w path false .OPEN_EXISTING with ⟨wA, hf⟩
  rcases hB : GetFileSize wA hf with ⟨wB, lo, hi⟩
  rcases hC : CreateFileMapping wB hf false hi lo with ⟨wC, hm⟩
  rcases hD : MapViewOfFile wC hm false with ⟨wD, mp⟩
  rw [ctor_eq hA hB hC hD] at h
  split_ifs at h
  cases mp with
  | none => simp [Option.elim] at h
  | some m =>
    simp only [Option.elim, Outcome.ok.injEq] at h
    exact ⟨_, _, _, _, h.2.symm⟩

theorem make_shared_spec {w : World} {path : String} {bs : List Nat}
    (hfc : fileContent w path = some bs) (hlen : bs.length < SIZE_T_MOD) :
    (∀ w1 F, FileStorage.make_shared w path = .ok w1 F →
      sizeOf w1 F = bs.length ∧ contents w1 F = some bs ∧
      ∃ f m p, getCell w1 F = some ⟨.file f m bs.length p, 1⟩) ∧
    (calm w = true → 0 < bs.length → bs.length % DWORD_MOD ≠ INVALID_FILE_SIZE →
      ∃ w1 F, FileStorage.make_shared w path = .ok w1 F) := by
  obtain ⟨hinv, hex⟩ := ctor_spec hfc hlen
  constructor
  · intro w1 F h
    unfold FileStorage.make_shared at h
    cases hc : FileStorage.ctor w path with
    | throw w2 e => rw [hc] at h; simp at h
    | ok w2 s =>
      rw [hc] at h
      simp only [newShared, Outcome.ok.injEq] at h
      obtain ⟨hs, hr⟩ := hinv w2 s hc
      have hcell : getCell w1 F = some ⟨s, 1⟩ := by
        apply getCell_of_getElem
        rw [← h.1, ← h.2]
        simp
      have hmem : w1.mem = w2.mem := by rw [← h.1]
      refine ⟨?_, ?_, ?_⟩
      · rw [sizeOf_eq hcell]
        exact (size_congr s hmem).trans hs
      · simp only [contents, hcell]
        rw [size_congr s hmem, hs, readBytes_congr hmem, hr]
      · obtain ⟨f, m, sz, p, hfile⟩ := ctor_ok_file hc
        rw [hfile] at hs hcell
        simp only [Storage.size] at hs
        rw [hs] at hcell
        exact ⟨f, m, p, hcell⟩
  · intro hc hpos hne
    obtain ⟨w1, s, h⟩ := hex hc hpos hne
    exact ⟨(newShared w1 s).1, (newShared w1 s).2, by simp only [FileStorage.make_shared, h]⟩

theorem create_cases {w : World} {path : String} {size : Nat} {data : Ptr} {bs : List Nat}
    (hrd : readBytes w data size = some bs) (hsz : size < SIZE_T_MOD) :
    (∃ wT e, FileStorage.create w path size data = .throw wT e ∧
      ¬ (calm w = true ∧ 0 < size)) ∨
    (∃ w7, fileContent w7 path = some bs ∧ (calm w = true → calm w7 = true) ∧
      FileStorage.create w path size data = FileStorage.make_shared w7 path) := by
  obtain ⟨hblk, hlen, _⟩ := readBytes_some hrd
  obtain ⟨_, hsum, hhi⟩ := split_size hsz
  rcases hA : CreateFile w path true .CREATE_ALWAYS with ⟨wA, hf⟩
  rcases hB : CreateFileMapping wA hf true ((size >>> 32) % DWORD_MOD) (size % DWORD_MOD)
    with ⟨wB, hm⟩
  rcases hC : MapViewOfFile wB hm true with ⟨wC, mp⟩
  rw [create_eq hA hB hC]
  rw [CreateFile_always] at hA
  by_cases hf0 : faulty w = true
  · rw [if_pos hf0] at hA
    simp only [Prod.mk.injEq] at hA
    rw [if_pos hA.2.symm]
    exact Or.inl ⟨_, _, rfl, fun h => by rw [faulty_of_calm h.1] at hf0; simp at hf0⟩
  rw [if_neg hf0] at hA
  simp only [Prod.mk.injEq] at hA
  obtain ⟨hwA, hhf⟩ := hA
  have hfv : hf ≠ INVALID_HANDLE_VALUE := by rw [← hhf]; simp [INVALID_HANDLE_VALUE]
  rw [if_neg hfv]
  have hAh : getHandle wA hf = some (.file path true) := by
    rw [← hwA, ← hhf]; simp [getHandle]
  have hAf : fileContent wA path = some [] := by
    rw [← hwA]; simp [fileContent, List.lookup_cons]
  have hAc : calm w = true → calm wA = true := fun hc =>
    calm_step hc (by rw [← hwA]) (by rw [← hwA]; simp)
  have hAm : wA.mem = w.mem := by rw [← hwA]
  rw [CreateFileMapping_file true _ _ hAh hAf, hhi, hsum] at hB
  simp only [List.length_nil, ite_self, Bool.not_true, Bool.and_false, Bool.false_eq_true,
    if_false, if_true, gt_iff_lt, Nat.sub_zero, List.nil_append] at hB
  by_cases hf1 : faulty wA = true
  · rw [if_pos hf1] at hB
    simp only [Prod.mk.injEq] at hB
    rw [← hB.2] at hC ⊢
    rw [create_tail_null _ hC]
    exact Or.inl ⟨_, _, rfl, fun h => by rw [faulty_of_calm (hAc h.1)] at hf1; simp at hf1⟩
  rw [if_neg hf1] at hB
  by_cases hz : size = 0
  · simp only [hz, if_true] at hB
    simp only [Prod.mk.injEq] at hB
    rw [← hB.2] at hC ⊢
    rw [create_tail_null _ hC]
    exact Or.inl ⟨_, _, rfl, fun h => by have := h.2; omega⟩
  simp only [hz, if_false, Nat.pos_of_ne_zero hz, if_true, newHandle, setFile, logCall,
    Prod.mk.injEq] at hB
  obtain ⟨hwB, hhm⟩ := hB
  have hmv : hm ≠ INVALID_HANDLE_VALUE := by rw [← hhm]; simp [INVALID_HANDLE_VALUE]
  rw [if_neg hmv]
  have hBh : getHandle wB hm = some (.mapping path size true) := by
    rw [← hwB, ← hhm]; simp [getHandle]
  have hBf : fileContent wB path = some (List.replicate size 0) := by
    rw [← hwB]; simp [fileContent, List.lookup_cons]
  have hBc : calm w = true → calm wB = true := fun hc =>
    calm_step (hAc hc) (by rw [← hwB]) (by rw [← hwB]; simp)
  have hBm : wB.mem = w.mem := by rw [← hwB]; exact hAm
  rw [MapViewOfFile_mapping true hBh hBf rfl] at hC
  by_cases hf2 : faulty wB = true
  · rw [if_pos hf2] at hC
    simp only [Prod.mk.injEq] at hC
    rw [← hC.2]
    exact Or.inl ⟨_, _, rfl, fun h => by rw [faulty_of_calm (hBc h.1)] at hf2; simp at hf2⟩
  rw [if_neg hf2] at hC
  simp only [Prod.mk.injEq] at hC
  obtain ⟨hwC, hmp⟩ := hC
  rw [← hmp]
  simp only [Option.elim]
  have hCm : wC.mem = wB.mem ++ [.mapped path true ((List.replicate size 0).take size)] := by
    rw [← hwC]
  have hCf : fileContent wC path = some (List.replicate size 0) := by rw [← hwC]; exact hBf
  have hCr : readBytes wC data bs.length = some bs := by
    rw [hlen, ← hrd]
    apply readBytes_eq_of_block
    rw [hCm, hBm]
    simp [List.getElem?_append_left, hblk]
  obtain ⟨w4, hcpy, hfile, hfaults, htrace⟩ :=
    write_phase hCm (by simp [hlen]) hCf (by simp [hlen]) hCr
  rw [hlen] at hcpy
  rw [hcpy]
  simp only []
  obtain ⟨e1, e2, e3, _, _⟩ := CloseHandle_frame (UnmapViewOfFile w4 ⟨wB.mem.length, 0⟩) hm
  obtain ⟨g1, g2, g3, _, _⟩ :=
    CloseHandle_frame (CloseHandle (UnmapViewOfFile w4 ⟨wB.mem.length, 0⟩) hm) hf
  have h7f : fileContent (CloseHandle (CloseHandle (UnmapViewOfFile w4 ⟨wB.mem.length, 0⟩) hm)
      hf) path = some bs := by
    unfold fileContent at hfile ⊢
    rw [g1, e1]
    exact hfile
  have h7c : calm w = true →
      calm (CloseHandle (CloseHandle (UnmapViewOfFile w4 ⟨wB.mem.length, 0⟩) hm) hf)
        = true := fun hc =>
    calm_step (hBc hc) (by rw [g2, e2, hfaults, ← hwC]) (by
      rw [g3, e3, htrace, ← hwC]; simp)
  exact Or.inr ⟨_, h7f, h7c, rfl⟩

theorem create_spec {w : World} {path : String} {size : Nat} {data : Ptr} {bs : List Nat}
    (hrd : readBytes w data size = some bs) (hsz : size < SIZE_T_MOD) :
    (∀ wF F, FileStorage.create w path size data = .ok wF F →
      sizeOf wF F = size ∧ contents wF F = some bs ∧
      ∃ f m p, getCell wF F = some ⟨.file f m size p, 1⟩) ∧
    (calm w = true → 0 < size → size % DWORD_MOD ≠ INVALID_FILE_SIZE →
      ∃ wF F, FileStorage.create w path size data = .ok wF F) := by
  obtain ⟨_, hlen, _⟩ := readBytes_some hrd
  rcases @create_cases w path size data bs hrd hsz with ⟨wT, e, ht, hn⟩ | ⟨w7, h7f, h7c, heq⟩
  · rw [ht]
    exact ⟨by simp, fun hc hpos _ => absurd ⟨hc, hpos⟩ hn⟩
  · rw [heq]
    obtain ⟨hinv, hex⟩ := make_shared_spec h7f (by rw [hlen]; exact hsz)
    rw [hlen] at hinv hex
    exact ⟨hinv, fun hc hpos hne => hex (h7c hc) hpos hne⟩

/-! ## `FileStorage` -/

/-- Assembly of the size. When `CreateFile` has returned a valid handle and
the size query returns the halves (high, low), the constructor throws
"Unable to fetch file size" exactly when `low` equals `INVALID_FILE_SIZE`;
otherwise its next platform call is `CreateFileMapping` with maximum size
(high, low), and an object it constructs has
`size() == high * 2^32 + low == (high << 32) | low`. -/
theorem ctor_size_of_halves (w w1 w2 : World) (filename : String) (hf : HANDLE)
    (high low : Nat)
    (hopen : CreateFile w filename false .OPEN_EXISTING = (w1, hf))
    (hvalid : hf ≠ INVALID_HANDLE_VALUE)
    (hq : GetFileSize w1 hf = (w2, low, high)) :
    ((∃ w3, FileStorage.ctor w filename = .throw w3 .unableToFetchFileSize)
      ↔ low = INVALID_FILE_SIZE) ∧
    (low ≠ INVALID_FILE_SIZE →
      (∃ rest, (FileStorage.ctor w filename).world.trace
        = w2.trace ++ [.createFileMapping hf false high low] ++ rest) ∧
      ∀ w3 s, FileStorage.ctor w filename = .ok w3 s →
        s.size w3 = high * 2 ^ 32 + low ∧ s.size w3 = (high <<< 32) ||| low) := by
  have hb : low < DWORD_MOD ∧ high < DWORD_MOD := by
    have hb0 := GetFileSize_bounds w1 hf
    rw [hq] at hb0
    exact hb0
  obtain ⟨hasm, hshift⟩ := assemble_size hb.2 hb.1
  have hctor : FileStorage.ctor w filename =
      if INVALID_FILE_SIZE = low then .throw w2 .unableToFetchFileSize
      else if (CreateFileMapping w2 hf false high low).2 = INVALID_HANDLE_VALUE then
        .throw (CreateFileMapping w2 hf false high low).1 .unableToMapFile
      else
        match (MapViewOfFile (CreateFileMapping w2 hf false high low).1
          (CreateFileMapping w2 hf false high low).2 false).2 with
        | none => .throw (MapViewOfFile (CreateFileMapping w2 hf false high low).1
            (CreateFileMapping w2 hf false high low).2 false).1 .unableToCreateMapView
        | some m => .ok (MapViewOfFile (CreateFileMapping w2 hf false high low).1
            (CreateFileMapping w2 hf false high low).2 false).1
            (.file hf (CreateFileMapping w2 hf false high low).2
              (((high <<< 32) % SIZE_T_MOD) ||| low) m) := by
    simp only [FileStorage.ctor, hopen, hq, if_neg hvalid]
  rw [hctor]
  constructor
  · constructor
    · rintro ⟨w3, h3⟩
      by_contra hne
      rw [if_neg (fun h => hne h.symm)] at h3
      split_ifs at h3
      · simp at h3
      · split at h3 <;> simp at h3
    · intro hl
      exact ⟨w2, by rw [if_pos hl.symm]⟩
  · intro hne
    rw [if_neg (fun h => hne h.symm)]
    constructor
    · split_ifs
      · exact ⟨[], by simp [Outcome.world, CreateFileMapping_trace]⟩
      · split
        · exact ⟨[.mapViewOfFile (CreateFileMapping w2 hf false high low).2 false], by
            simp [Outcome.world, CreateFileMapping_trace, MapViewOfFile_trace]⟩
        · exact ⟨[.mapViewOfFile (CreateFileMapping w2 hf false high low).2 false], by
            simp [Outcome.world, CreateFileMapping_trace, MapViewOfFile_trace]⟩
    · intro w3 s h3
      by_cases hm : (CreateFileMapping w2 hf false high low).2 = INVALID_HANDLE_VALUE
      · rw [if_pos hm] at h3
        simp at h3
      · rw [if_neg hm] at h3
        split at h3
        · simp at h3
        · simp only [Outcome.ok.injEq] at h3
          rw [← h3.2]
          have e2 : ((high <<< 32) % SIZE_T_MOD) ||| low = (high <<< 32) ||| low := by
            rw [hshift]
          exact ⟨hasm, e2⟩

/-- Round trip through a file, as far as it holds. For every storage M whose
bytes `bs` are readable and whose size is a `size_t`: whenever
`M.toFileStorage(path)` returns, the result is a `FileStorage` F with
`F.size() == M.size()` whose mapped bytes are exactly `bs`; and it does
return when no platform call is scheduled to fail, M is not empty and the low
half of its size is not the `INVALID_FILE_SIZE` pattern. -/
theorem roundtrip_when_returned (w : World) (M : Nat) (path : String) (bs : List Nat)
    (hv : contents w M = some bs) (hsz : sizeOf w M < SIZE_T_MOD) :
    (∀ w1 F, Storage.toFileStorage w M path = .ok w1 F →
      sizeOf w1 F = sizeOf w M ∧ contents w1 F = some bs ∧
      ∃ f m p, getCell w1 F = some ⟨.file f m (sizeOf w M) p, 1⟩) ∧
    (calm w = true → 0 < sizeOf w M → sizeOf w M % DWORD_MOD ≠ INVALID_FILE_SIZE →
      ∃ w1 F, Storage.toFileStorage w M path = .ok w1 F) := by
  obtain ⟨c, hc, hr⟩ := contents_some hv
  rw [sizeOf_eq hc] at hsz ⊢
  have h := @create_spec w path _ _ _ hr hsz
  simpa only [Storage.toFileStorage, hc] using h

theorem ctor_sentinel {w : World} {path : String} {bs : List Nat}
    (hfc : fileContent w path = some bs) (hcalm : calm w = true)
    (hsent : bs.length % DWORD_MOD = INVALID_FILE_SIZE) :
    ∃ wA wB, CreateFile w path false .OPEN_EXISTING = (wA, .h w.handles.length) ∧
      faulty wA = false ∧
      GetFileSize wA (.h w.handles.length)
        = (wB, bs.length % DWORD_MOD, (bs.length / DWORD_MOD) % DWORD_MOD) ∧
      FileStorage.ctor w path = .throw wB .unableToFetchFileSize := by
  rcases hA : CreateFile w path false .OPEN_EXISTING with ⟨wA, hf⟩
  rcases hB : GetFileSize wA hf with ⟨wB, lo, hi⟩
  rcases hC : CreateFileMapping wB hf false hi lo with ⟨wC, hm⟩
  rcases hD : MapViewOfFile wC hm false with ⟨wD, mp⟩
  have hctor := ctor_eq hA hB hC hD
  rw [CreateFile_open false hfc, faulty_of_calm hcalm] at hA
  simp only [Bool.false_eq_true, if_false, Prod.mk.injEq] at hA
  obtain ⟨hwA, hhf⟩ := hA
  have hAh : getHandle wA hf = some (.file path false) := by
    rw [← hwA, ← hhf]; simp [getHandle]
  have hAf : fileContent wA path = some bs := by rw [← hwA]; exact hfc
  have hAc : calm wA = true := calm_step hcalm (by rw [← hwA]) (by rw [← hwA]; simp)
  have hB0 := hB
  rw [GetFileSize_file hAh hAf, faulty_of_calm hAc] at hB
  simp only [Bool.false_eq_true, if_false, Prod.mk.injEq] at hB
  obtain ⟨_, hlo, hhi⟩ := hB
  rw [← hlo, ← hhi, ← hhf] at hB0
  have hfv : hf ≠ INVALID_HANDLE_VALUE := by rw [← hhf]; simp [INVALID_HANDLE_VALUE]
  rw [if_neg hfv, if_pos (hsent.symm.trans hlo)] at hctor
  exact ⟨wA, wB, by rw [hhf], faulty_of_calm hAc, hB0, hctor⟩

theorem toFileStorage_sentinel {w : World} {M : Nat} {path : String} {bs : List Nat}
    (hv : contents w M = some bs) (hsz : bs.length < SIZE_T_MOD) (hcalm : calm w = true)
    (hpos : 0 < bs.length) (hsent : bs.length % DWORD_MOD = INVALID_FILE_SIZE) :
    ∃ w7 wA wB, fileContent w7 path = some bs ∧
      CreateFile w7 path false .OPEN_EXISTING = (wA, .h w7.handles.length) ∧
      faulty wA = false ∧
      GetFileSize wA (.h w7.handles.length)
        = (wB, bs.length % DWORD_MOD, (bs.length / DWORD_MOD) % DWORD_MOD) ∧
      Storage.toFileStorage w M path = .throw wB .unableToFetchFileSize := by
  obtain ⟨c, hc, hr⟩ := contents_some hv
  obtain ⟨_, hlen, _⟩ := readBytes_some hr
  rw [← hlen] at hr
  rcases @create_cases w path bs.length c.obj.data bs hr hsz with
    ⟨wT, e, _, hn⟩ | ⟨w7, h7f, h7c, heq⟩
  · exact absurd ⟨hcalm, hpos⟩ hn
  · obtain ⟨wA, wB, hA, hfa, hB, hctor⟩ := ctor_sentinel h7f (h7c hcalm) hsent
    refine ⟨w7, wA, wB, h7f, hA, hfa, hB, ?_⟩
    simp only [Storage.toFileStorage, hc, ← hlen, heq, FileStorage.make_shared, hctor]

/-- C9 (the code at the failing input): the existing file "f" has length
2^32 - 1 and no platform call fails. `CreateFile` returns the valid handle 0
and `GetFileSize` returns the true halves of the length, high = 0 and
low = 4294967295, with `0 * 2^32 + 4294967295` the length of the file. The
constructor nevertheless throws "Unable to fetch file size", because the low
half has the bit pattern of `INVALID_FILE_SIZE`. -/
theorem FileStorage_ctor_rejects_valid_size :
    fileContent bigFileWorld "f" = some (List.replicate 4294967295 0) ∧
    (List.replicate 4294967295 0).length = 0 * 2 ^ 32 + 4294967295 ∧
    calm bigFileWorld = true ∧
    ∃ wA wB, CreateFile bigFileWorld "f" false .OPEN_EXISTING = (wA, .h 0) ∧
      faulty wA = false ∧
      GetFileSize wA (.h 0) = (wB, 4294967295, 0) ∧
      FileStorage.ctor bigFileWorld "f" = .throw wB .unableToFetchFileSize := by
  have hfc : fileContent bigFileWorld "f" = some (List.replicate 4294967295 0) := rfl
  have hlen : (List.replicate 4294967295 0).length = 4294967295 := List.length_replicate _ _
  have hlo : (List.replicate 4294967295 0).length % DWORD_MOD = 4294967295 := by
    rw [hlen]; decide
  have hhi : ((List.replicate 4294967295 0).length / DWORD_MOD) % DWORD_MOD = 0 := by
    rw [hlen]; decide
  obtain ⟨wA, wB, hA, hfa, hB, hctor⟩ :=
    ctor_sentinel hfc (by decide) (by rw [hlo]; rfl)
  rw [hlo, hhi] at hB
  exact ⟨hfc, hlen.trans (by decide), by decide, wA, wB, hA, hfa, hB, hctor⟩

/-- C6 (the code at the failing input): M is a `MemoryStorage` of 2^32 - 1
bytes and no platform call fails. `toFileStorage` writes the file completely
(in the world `w7` after the write phase the file holds the bytes of M), the
fresh `CreateFile` returns a valid handle and `GetFileSize` returns the true
halves, high = 0 and low = 4294967295. The call nevertheless throws "Unable
to fetch file size" and returns no `FileStorage`. -/
theorem toFileStorage_rejects_valid_size :
    contents sampleBig 0 = some (List.replicate 4294967295 0) ∧
    sizeOf sampleBig 0 = 4294967295 ∧ calm sampleBig = true ∧
    ∃ w7 wA wB, fileContent w7 "f" = some (List.replicate 4294967295 0) ∧
      CreateFile w7 "f" false .OPEN_EXISTING = (wA, .h w7.handles.length) ∧
      faulty wA = false ∧
      GetFileSize wA (.h w7.handles.length) = (wB, 4294967295, 0) ∧
      Storage.toFileStorage sampleBig 0 "f" = .throw wB .unableToFetchFileSize := by
  have hblk : sampleBig.mem[0]? = some (.heap (List.replicate 4294967295 0)) := rfl
  have hcell : getCell sampleBig 0 = some ⟨.memory 0, 1⟩ := rfl
  have hlen : (List.replicate 4294967295 0).length = 4294967295 := List.length_replicate _ _
  have hlo : (List.replicate 4294967295 0).length % DWORD_MOD = 4294967295 := by
    rw [hlen]; decide
  have hhi : ((List.replicate 4294967295 0).length / DWORD_MOD) % DWORD_MOD = 0 := by
    rw [hlen]; decide
  have hv := contents_memory hcell hblk
  obtain ⟨w7, wA, wB, h7f, hA, hfa, hB, hthrow⟩ :=
    @toFileStorage_sentinel sampleBig 0 "f" _ hv (by rw [hlen]; decide) (by decide)
      (by rw [hlen]; decide) (by rw [hlo]; rfl)
  rw [hlo, hhi] at hB
  exact ⟨hv, by rw [sizeOf_memory hcell hblk, hlen], by decide, w7, wA, wB, h7f, hA, hfa, hB,
    hthrow⟩

/-- C7 (the code at failing inputs): a failed call leaves handles open.
Before each call no handle is open.
(1) The constructor on the existing file "f" whose size query fails throws
"Unable to fetch file size" with the file handle 0 still open.
(2) The constructor whose `MapViewOfFile` fails throws with the file handle
and the mapping handle still open.
(3) `toFileStorage`, that is `create`, whose `CreateFileMapping` fails throws
with the file handle still open.
(4) `create` whose `MapViewOfFile` fails throws with both of its handles
still open. -/
theorem FileStorage_failure_leaks :
    (openHandles (fileWorld 1) = [] ∧
      (∃ w1, FileStorage.ctor (fileWorld 1) "f" = .throw w1 .unableToFetchFileSize ∧
        openHandles w1 = [0])) ∧
    (openHandles (fileWorld 3) = [] ∧
      (∃ w1, FileStorage.ctor (fileWorld 3) "f" = .throw w1 .unableToCreateMapView ∧
        openHandles w1 = [0, 1])) ∧
    (∃ w1, Storage.toFileStorage (fileWorld 1) 0 "g" = .throw w1 .unableToCreateMapView ∧
        openHandles w1 = [0]) ∧
    (openHandles (fileWorld 2) = [] ∧
      (∃ w1, Storage.toFileStorage (fileWorld 2) 0 "g" = .throw w1 .unableToCreateMapView ∧
        openHandles w1 = [0, 1])) := by
  refine ⟨⟨by decide, _, rfl, by decide⟩, ⟨by decide, _, rfl, by decide⟩,
    ⟨_, rfl, by decide⟩, ⟨by decide, _, rfl, by decide⟩⟩

end storage
